import Mathlib

/-!
Shallow embedding of the currency-codes repository: the `FxCodes` registry of
`iso_4217_currency_codes.py` and the two command-line entry operations of
`currency_code.py`.  The dataset is a parameter (a list of records), Python
dicts become association lists with last-write-wins lookup, `defaultdict(set)`
becomes an association list of duplicate-free value lists, and the
`FxCodesException` raise sites become an explicit error type.
-/

namespace CurrencyCodes

/-- One raw entry of the json dataset.  `currency_iso = none` models an entry
whose AlphabeticCode field is missing or null (Python `entry.get(...)` gives
`None` for both); every other field is read as a plain value, with the Owner
and Primary fields kept as their truthiness. -/
structure RawRecord where
  currency_iso : Option String
  currency : String
  country : String
  owner : Bool
  primary : Bool
  deriving DecidableEq

/-- A record retained by `FxCodes.json_data`: its AlphabeticCode was present. -/
structure Record where
  currency_iso : String
  currency : String
  country : String
  owner : Bool
  primary : Bool
  deriving DecidableEq

/-- Embedding of `FxCodes.json_data` (line 57): keep exactly the entries whose
AlphabeticCode is present, `tuple(entry for entry in data if
entry.get(self.JSON_CURRENCY_ISO) is not None)`. -/
def json_data (raw : List RawRecord) : List Record :=
  raw.filterMap fun e =>
    e.currency_iso.map fun i =>
      { currency_iso := i, currency := e.currency, country := e.country,
        owner := e.owner, primary := e.primary }

/-- Python `str.upper()` as a character-wise map (ASCII case mapping); defined
structurally over the character list so that it evaluates by kernel reduction. -/
def upper (s : String) : String := ⟨s.data.map Char.toUpper⟩

/-- Python `str.lower()`, the same way. -/
def lower (s : String) : String := ⟨s.data.map Char.toLower⟩

/-- Lookup in an association list read as a Python dict comprehension: a later
pair with the same key overwrites an earlier one, and a missing key gives
`none` (dict.get). -/
def dictGet : List (String × String) → String → Option String
  | [], _ => none
  | p :: rest, k =>
    match dictGet rest k with
    | some v => some v
    | none => if p.1 = k then some p.2 else none

/-- A Python `defaultdict(set)` of strings: keys in insertion order, each set
kept as a duplicate-free list in insertion order. -/
abbrev SMap := List (String × List String)

/-- `m.get(k)` on a set-valued dict: first (only) entry with the key. -/
def smLookup : SMap → String → Option (List String)
  | [], _ => none
  | p :: rest, k => if p.1 = k then some p.2 else smLookup rest k

/-- `m[k].add(v)` on a `defaultdict(set)`: create the entry on a missing key,
and add `v` to the set if it is not already present. -/
def smAdd : SMap → String → String → SMap
  | [], k, v => [(k, [v])]
  | p :: rest, k, v =>
    if p.1 = k then (p.1, if v ∈ p.2 then p.2 else p.2 ++ [v]) :: rest
    else p :: smAdd rest k v

/-- `FxCodes.currency_to_currency_iso_map` (line 77): currency name,
uppercased, to currency ISO. -/
def currency_to_currency_iso_map (rs : List Record) : List (String × String) :=
  rs.map fun r => (upper r.currency, r.currency_iso)

/-- `FxCodes.currency_iso_to_currency_map` (line 82): currency ISO (as stored)
to currency name. -/
def currency_iso_to_currency_map (rs : List Record) : List (String × String) :=
  rs.map fun r => (r.currency_iso, r.currency)

/-- `FxCodes.country_to_currency_isos_map` (lines 85-89): country, uppercased,
to the set of its currency ISOs. -/
def country_to_currency_isos_map (rs : List Record) : SMap :=
  rs.foldl (fun m r => smAdd m (upper r.country) r.currency_iso) []

/-- `FxCodes.currency_iso_to_countries_map` (lines 92-96): currency ISO (as
stored) to the set of countries using it. -/
def currency_iso_to_countries_map (rs : List Record) : SMap :=
  rs.foldl (fun m r => smAdd m r.currency_iso r.country) []

/-- `FxCodes.currency_iso_to_owner_country_map` (line 100): currency ISO to
country, over the entries whose Owner field is truthy. -/
def currency_iso_to_owner_country_map (rs : List Record) : List (String × String) :=
  (rs.filter fun r => r.owner).map fun r => (r.currency_iso, r.country)

/-- `FxCodes.country_to_primary_currency_iso_map` (line 104): country,
uppercased, to currency ISO, over the entries whose Primary field is truthy. -/
def country_to_primary_currency_iso_map (rs : List Record) : List (String × String) :=
  (rs.filter fun r => r.primary).map fun r => (upper r.country, r.currency_iso)

/-- The two `raise FxCodesException(...)` sites of `FxCodes` (lines 128 and
144), distinguished by their message templates; each carries the lookup key
and the full candidate set that the f-string interpolates. -/
inductive FxError where
  | ambiguousCurrency (country : String) (candidates : List String)
  | ambiguousOwner (iso : String) (candidates : List String)
  deriving DecidableEq

/-- The message of the line-128 raise:
`f"No unique currency ISO for country ISO '{country}' possibilities: {currency_isos}"`,
with the rendering of the candidate set abstracted as a string. -/
def ambiguousCurrencyMessage (country : String) (candidates : String) : String :=
  "No unique currency ISO for country ISO '" ++
    (country ++ ("' possibilities: " ++ candidates))

/-- The message of the line-144 raise:
`f"No unique ownership for ISO '{currency_iso}' used by: {countries}"`. -/
def ambiguousOwnerMessage (iso : String) (candidates : String) : String :=
  "No unique ownership for ISO '" ++ (iso ++ ("' used by: " ++ candidates))

/-- `FxCodes.currency_iso_from_currency` (lines 106-108). -/
def currency_iso_from_currency (rs : List Record) (currency : String) : Option String :=
  dictGet (currency_to_currency_iso_map rs) (upper currency)

/-- `FxCodes.currency_from_currency_iso` (lines 110-112). -/
def currency_from_currency_iso (rs : List Record) (iso : String) : Option String :=
  dictGet (currency_iso_to_currency_map rs) (upper iso)

/-- `FxCodes.currency_isos_from_country` (lines 114-117): `.get` on the
set-valued index, an absent key giving the empty set. -/
def currency_isos_from_country (rs : List Record) (country : String) : List String :=
  (smLookup (country_to_currency_isos_map rs) (upper country)).getD []

/-- `FxCodes.countries_from_currency_iso` (lines 130-133). -/
def countries_from_currency_iso (rs : List Record) (iso : String) : List String :=
  (smLookup (currency_iso_to_countries_map rs) (upper iso)).getD []

/-- `FxCodes.currency_iso_from_country` (lines 119-128): no candidate gives
`None`, a unique candidate is returned, otherwise the primary map is consulted
with `is not None`, and failing that the line-128 exception is raised. -/
def currency_iso_from_country (rs : List Record) (country : String) :
    Except FxError (Option String) :=
  if (currency_isos_from_country rs country).length = 0 then .ok none
  else if (currency_isos_from_country rs country).length = 1 then
    .ok (currency_isos_from_country rs country).head?
  else
    match dictGet (country_to_primary_currency_iso_map rs) (upper country) with
    | some primary => .ok (some primary)
    | none => .error (.ambiguousCurrency country (currency_isos_from_country rs country))

/-- `FxCodes.country_from_currency_iso` (lines 135-144): as above, except that
the owner lookup result is tested for Python truthiness (`elif (owner := ...)`),
so both a missing owner entry and an owner entry whose country is the empty
string fall through to the line-144 exception. -/
def country_from_currency_iso (rs : List Record) (currency_iso : String) :
    Except FxError (Option String) :=
  if (countries_from_currency_iso rs currency_iso).length = 0 then .ok none
  else if (countries_from_currency_iso rs currency_iso).length = 1 then
    .ok (countries_from_currency_iso rs currency_iso).head?
  else
    match dictGet (currency_iso_to_owner_country_map rs) (upper currency_iso) with
    | some owner =>
      if owner = "" then
        .error (.ambiguousOwner currency_iso (countries_from_currency_iso rs currency_iso))
      else .ok (some owner)
    | none => .error (.ambiguousOwner currency_iso (countries_from_currency_iso rs currency_iso))

/-- Python `dict.get` on a set-valued index, with the state threaded: it reads
the value and leaves the index unchanged (unlike `defaultdict` subscripting,
`get` never inserts a default). -/
def dget (m : SMap) (k : String) : Option (List String) × SMap :=
  (smLookup m k, m)

/-- `currency_isos_from_country` with the index state threaded explicitly. -/
def currency_isos_from_country_st (m : SMap) (country : String) :
    List String × SMap :=
  let r := dget m (upper country)
  (r.1.getD [], r.2)

/-- `countries_from_currency_iso` with the index state threaded explicitly. -/
def countries_from_currency_iso_st (m : SMap) (iso : String) :
    List String × SMap :=
  let r := dget m (upper iso)
  (r.1.getD [], r.2)

/-- Modelled from the spec: the external country-name resolution collaborator
(`COUNTRY_CODES`, imported from the module `country_codes`, which is not part
of this repository's sources).  Per the spec it exposes a known-code test, a
free-text name resolver, a name-to-code map and a display name per code. -/
structure CountryCodes where
  codes : List String
  country_from_iso : String → Option String
  match_country : String → Option String
  iso_from_country : String → String
  display_name : String → String

/-- Python interpolates `None` as the text `None` in an f-string. -/
def pyStr (o : Option String) : String := o.getD "None"

/-- The key-resolution steps of `currency_code.currency_iso_from_country`
(lines 48-54): the input verbatim when it is a known country code, else the
code of the matched free-text country name, else the input verbatim. -/
def resolved_country_code (cc : CountryCodes) (country : String) : String :=
  match cc.country_from_iso country with
  | some _ => country
  | none =>
    match cc.match_country country with
    | some m => cc.iso_from_country m
    | none => country

/-- `currency_code.currency_iso_from_country` (lines 46-59): the printed line
and the returned exit status, with an uncaught `FxCodesException` propagated. -/
def cli_currency_iso_from_country (cc : CountryCodes) (rs : List Record)
    (country : String) : Except FxError (Int × String) :=
  match currency_iso_from_country rs (resolved_country_code cc country) with
  | .error e => .error e
  | .ok none => .ok (-1, "Unknown country or organization: " ++ country)
  | .ok (some iso) =>
    .ok (0, country ++ (": " ++ (iso ++ (" (" ++
      (pyStr (currency_from_currency_iso rs iso) ++ ")")))))

/-- `currency_code.country_from_currency_iso` (lines 30-37): the printed line
and the returned exit status; a found country that is a known country code is
replaced by its display name. -/
def cli_country_from_currency_iso (cc : CountryCodes) (rs : List Record)
    (iso : String) : Except FxError (Int × String) :=
  match country_from_currency_iso rs iso with
  | .error e => .error e
  | .ok none => .ok (-1, "Unknown currency ISO: " ++ iso)
  | .ok (some country) =>
    let disp := if country ∈ cc.codes then cc.display_name country else country
    .ok (0, iso ++ (": " ++ (disp ++ (" (" ++
      (pyStr (currency_from_currency_iso rs iso) ++ ")")))))

/-- Whether `pat` occurs at the head of `text`, character for character. -/
def charsLead : List Char → List Char → Bool
  | [], _ => true
  | _ :: _, [] => false
  | a :: as, b :: bs => a == b && charsLead as bs

/-- Whether `pat` occurs anywhere inside `text`. -/
def charsHaveSub (pat : List Char) : List Char → Bool
  | [] => pat.isEmpty
  | b :: bs => charsLead pat (b :: bs) || charsHaveSub pat bs

/-- Whether the string `pat` occurs as a contiguous substring of `text`. -/
def strHasSub (text pat : String) : Bool :=
  charsHaveSub pat.data text.data

/-- A one-record dataset: Narnia uses the US Dollar. -/
def rsSingle : List Record :=
  [{ currency_iso := "USD", currency := "US Dollar", country := "Narnia",
     owner := false, primary := false }]

/-- A dataset where the ISO XXX is used by two countries, the empty-named one
carrying the owner flag. -/
def rsOwnerEmpty : List Record :=
  [{ currency_iso := "XXX", currency := "Gold", country := "",
     owner := true, primary := false },
   { currency_iso := "XXX", currency := "Silver", country := "AA",
     owner := false, primary := false }]

/-- A dataset where the ISO EUR is used by two countries and GG carries the
owner flag. -/
def rsOwned : List Record :=
  [{ currency_iso := "EUR", currency := "Euro", country := "GG",
     owner := true, primary := false },
   { currency_iso := "EUR", currency := "Euro", country := "HH",
     owner := false, primary := false }]

/-- A dataset where the country BB has two currencies and no primary flag. -/
def rsAmb : List Record :=
  [{ currency_iso := "XXX", currency := "Gold", country := "BB",
     owner := false, primary := false },
   { currency_iso := "YYY", currency := "Silver", country := "BB",
     owner := false, primary := false }]

/-- A country-code collaborator that knows only the code US. -/
def ccUS : CountryCodes :=
  { codes := ["US"],
    country_from_iso := fun s => if s = "US" then some "US" else none,
    match_country := fun _ => none,
    iso_from_country := fun s => s,
    display_name := fun _ => "United States" }

/-- A country-code collaborator that knows nothing. -/
def ccTrivial : CountryCodes :=
  { codes := [], country_from_iso := fun _ => none,
    match_country := fun _ => none, iso_from_country := fun s => s,
    display_name := fun s => s }

/-- A US dataset for the end-to-end witnesses. -/
def rsUS : List Record :=
  [{ currency_iso := "USD", currency := "US Dollar", country := "US",
     owner := false, primary := false }]

/-! Association-list lemmas shared by the claim proofs. -/

theorem dictGet_eq_none (ps : List (String × String)) (k : String)
    (h : ∀ p ∈ ps, p.1 ≠ k) : dictGet ps k = none := by
  induction ps with
  | nil => rfl
  | cons p rest ih =>
    have hr := ih fun q hq => h q (List.mem_cons_of_mem p hq)
    simp [dictGet, hr, h p (List.mem_cons_self p rest)]

theorem dictGet_mem (ps : List (String × String)) (k v : String)
    (h : dictGet ps k = some v) : (k, v) ∈ ps := by
  induction ps with
  | nil => simp [dictGet] at h
  | cons p rest ih =>
    simp only [dictGet] at h
    cases hr : dictGet rest k with
    | some w =>
      rw [hr] at h
      cases h
      exact List.mem_cons_of_mem _ (ih hr)
    | none =>
      rw [hr] at h
      by_cases hk : p.1 = k
      · rw [if_pos hk] at h
        cases h
        have : p = (k, p.2) := by rw [← hk]
        exact this ▸ List.mem_cons_self p rest
      · rw [if_neg hk] at h
        cases h

theorem dictGet_exists_of_mem (ps : List (String × String)) (k v : String)
    (h : (k, v) ∈ ps) : ∃ w, dictGet ps k = some w := by
  induction ps with
  | nil => simp at h
  | cons p rest ih =>
    cases hr : dictGet rest k with
    | some w => exact ⟨w, by simp only [dictGet]; rw [hr]⟩
    | none =>
      rcases List.mem_cons.mp h with hp | hm
      · refine ⟨p.2, ?_⟩
        simp only [dictGet]
        rw [hr, if_pos (by rw [← hp])]
      · rcases ih hm with ⟨w, hw⟩
        rw [hw] at hr
        cases hr

theorem smLookup_smAdd_ne (m : SMap) (k q v : String) (h : q ≠ k) :
    smLookup (smAdd m q v) k = smLookup m k := by
  induction m with
  | nil => simp [smAdd, smLookup, h]
  | cons p rest ih =>
    by_cases hp : p.1 = q
    · have hk : ¬p.1 = k := by rw [hp]; exact h
      simp [smAdd, hp, smLookup, hk, h]
    · by_cases hk : p.1 = k
      · simp [smAdd, hp, smLookup, hk, Ne.symm h]
      · simp [smAdd, hp, smLookup, hk, Ne.symm h, ih]

theorem smLookup_foldl_smAdd_none (f g : Record → String) (rs : List Record) :
    ∀ (m : SMap) (k : String), smLookup m k = none → (∀ r ∈ rs, f r ≠ k) →
      smLookup (rs.foldl (fun m r => smAdd m (f r) (g r)) m) k = none := by
  induction rs with
  | nil => intro m k hm _; exact hm
  | cons r rest ih =>
    intro m k hm ha
    rw [List.foldl_cons]
    refine ih _ k ?_ fun q hq => ha q (List.mem_cons_of_mem r hq)
    rw [smLookup_smAdd_ne m k _ _ (ha r (List.mem_cons_self r rest))]
    exact hm

/-- C1: `currency_iso_from_country` returns `none` when the country has no
currency ISO codes, returns the unique code when it has exactly one, and with
two or more codes returns the explicitly flagged primary code when a primary
record exists (regardless of anything else), failing otherwise with the
ambiguous-currency error carrying the country and the full candidate set; the
unique-match check precedes the flag check, which precedes the failure. -/
theorem c1_currency_iso_from_country_cases (rs : List Record) (k : String) :
    (currency_isos_from_country rs k = [] → currency_iso_from_country rs k = .ok none) ∧
    (∀ x, currency_isos_from_country rs k = [x] →
      currency_iso_from_country rs k = .ok (some x)) ∧
    (∀ p, 2 ≤ (currency_isos_from_country rs k).length →
      dictGet (country_to_primary_currency_iso_map rs) (upper k) = some p →
      currency_iso_from_country rs k = .ok (some p) ∧
      ∃ r ∈ rs, r.primary = true ∧ upper r.country = upper k ∧ r.currency_iso = p) ∧
    (2 ≤ (currency_isos_from_country rs k).length →
      dictGet (country_to_primary_currency_iso_map rs) (upper k) = none →
      currency_iso_from_country rs k =
        .error (.ambiguousCurrency k (currency_isos_from_country rs k))) := by
  refine ⟨?_, ?_, ?_, ?_⟩
  · intro h
    simp [currency_iso_from_country, h]
  · intro x h
    simp [currency_iso_from_country, h]
  · intro p hlen hp
    constructor
    · unfold currency_iso_from_country
      rw [if_neg (by omega), if_neg (by omega), hp]
    · have hmem := dictGet_mem _ _ _ hp
      simp only [country_to_primary_currency_iso_map, List.mem_map,
        List.mem_filter, Prod.mk.injEq] at hmem
      rcases hmem with ⟨r, ⟨hr, hprim⟩, hcty, hiso⟩
      exact ⟨r, hr, hprim, hcty, hiso⟩
  · intro hlen hp
    unfold currency_iso_from_country
    rw [if_neg (by omega), if_neg (by omega), hp]

/-- Witness for C1 at a one-currency country. -/
theorem c1_witness : currency_iso_from_country rsSingle "Narnia" = .ok (some "USD") :=
  (c1_currency_iso_from_country_cases rsSingle "Narnia").2.1 "USD" rfl

/-- C2 counterexample: in the dataset `rsOwnerEmpty` the ISO XXX is used by
two countries and an explicit owner record exists for it, yet
`country_from_currency_iso` raises the ambiguity error instead of returning
that record's country: the code tests the owner value for Python truthiness
and the owner country is the empty string. -/
theorem c2_counterexample :
    dictGet (currency_iso_to_owner_country_map rsOwnerEmpty) "XXX" = some "" ∧
    2 ≤ (countries_from_currency_iso rsOwnerEmpty "XXX").length ∧
    country_from_currency_iso rsOwnerEmpty "XXX" =
      .error (.ambiguousOwner "XXX" ["", "AA"]) :=
  ⟨rfl, by decide, rfl⟩

/-- C2 (amended): `country_from_currency_iso` returns `none` when no country
uses the code, the unique country when exactly one does, and with two or more
countries returns the country of the explicit owner record when one exists
with a non-empty country value; when no owner record exists, or its country
value is the empty string, it fails with the ambiguous-owner error carrying
the code and the full candidate set. -/
theorem c2_country_from_currency_iso_cases (rs : List Record) (c : String) :
    (countries_from_currency_iso rs c = [] →
      country_from_currency_iso rs c = .ok none) ∧
    (∀ x, countries_from_currency_iso rs c = [x] →
      country_from_currency_iso rs c = .ok (some x)) ∧
    (∀ o, 2 ≤ (countries_from_currency_iso rs c).length →
      dictGet (currency_iso_to_owner_country_map rs) (upper c) = some o → o ≠ "" →
      country_from_currency_iso rs c = .ok (some o) ∧
      ∃ r ∈ rs, r.owner = true ∧ r.currency_iso = upper c ∧ r.country = o) ∧
    (2 ≤ (countries_from_currency_iso rs c).length →
      dictGet (currency_iso_to_owner_country_map rs) (upper c) = some "" →
      country_from_currency_iso rs c =
        .error (.ambiguousOwner c (countries_from_currency_iso rs c))) ∧
    (2 ≤ (countries_from_currency_iso rs c).length →
      dictGet (currency_iso_to_owner_country_map rs) (upper c) = none →
      country_from_currency_iso rs c =
        .error (.ambiguousOwner c (countries_from_currency_iso rs c))) := by
  refine ⟨?_, ?_, ?_, ?_, ?_⟩
  · intro h
    simp [country_from_currency_iso, h]
  · intro x h
    simp [country_from_currency_iso, h]
  · intro o hlen ho hne
    constructor
    · unfold country_from_currency_iso
      rw [if_neg (by omega), if_neg (by omega), ho]
      simp [hne]
    · have hmem := dictGet_mem _ _ _ ho
      simp only [currency_iso_to_owner_country_map, List.mem_map,
        List.mem_filter, Prod.mk.injEq] at hmem
      rcases hmem with ⟨r, ⟨hr, hown⟩, hiso, hcty⟩
      exact ⟨r, hr, hown, hiso, hcty⟩
  · intro hlen ho
    unfold country_from_currency_iso
    rw [if_neg (by omega), if_neg (by omega), ho]
    simp
  · intro hlen ho
    unfold country_from_currency_iso
    rw [if_neg (by omega), if_neg (by omega), ho]

/-- Witness for the amended C2 at a shared currency with a flagged owner. -/
theorem c2_witness : country_from_currency_iso rsOwned "EUR" = .ok (some "GG") :=
  ((c2_country_from_currency_iso_cases rsOwned "EUR").2.2.1 "GG" (by decide) rfl
    (by decide)).1

/-- C3: the two ambiguity failures are distinct identifiable kinds: their
exception messages can never coincide (the fixed templates differ at character
ten) and the modelled error values use distinct constructors; each carries the
lookup key and the full candidate set (an error from
`currency_iso_from_country` is exactly the ambiguous-currency error for the
queried country with its complete, at-least-two-element candidate set, and
symmetrically for the owner); and an error outcome is never the plain
not-found outcome `.ok none`. -/
theorem c3_ambiguity_errors_distinct :
    (∀ c s i t, ambiguousCurrencyMessage c s ≠ ambiguousOwnerMessage i t) ∧
    (∀ c l i m, FxError.ambiguousCurrency c l ≠ FxError.ambiguousOwner i m) ∧
    (∀ rs k e, currency_iso_from_country rs k = .error e →
      e = .ambiguousCurrency k (currency_isos_from_country rs k) ∧
      2 ≤ (currency_isos_from_country rs k).length) ∧
    (∀ rs c e, country_from_currency_iso rs c = .error e →
      e = .ambiguousOwner c (countries_from_currency_iso rs c) ∧
      2 ≤ (countries_from_currency_iso rs c).length) ∧
    (∀ e : FxError, (Except.error e : Except FxError (Option String)) ≠ .ok none) := by
  refine ⟨?_, ?_, ?_, ?_, ?_⟩
  · intro c s i t h
    have hd : (ambiguousCurrencyMessage c s).data[10]? =
        (ambiguousOwnerMessage i t).data[10]? := by rw [h]
    simp only [ambiguousCurrencyMessage, ambiguousOwnerMessage,
      String.data_append] at hd
    rw [List.getElem?_append_left (by decide), List.getElem?_append_left (by decide)] at hd
    exact absurd hd (by decide)
  · intro c l i m h
    exact FxError.noConfusion h
  · intro rs k e h
    unfold currency_iso_from_country at h
    by_cases h0 : (currency_isos_from_country rs k).length = 0
    · rw [if_pos h0] at h
      cases h
    · rw [if_neg h0] at h
      by_cases h1 : (currency_isos_from_country rs k).length = 1
      · rw [if_pos h1] at h
        cases h
      · rw [if_neg h1] at h
        cases hp : dictGet (country_to_primary_currency_iso_map rs) (upper k) with
        | some p =>
          rw [hp] at h
          cases h
        | none =>
          rw [hp] at h
          injection h with he
          exact ⟨he.symm, by omega⟩
  · intro rs c e h
    unfold country_from_currency_iso at h
    by_cases h0 : (countries_from_currency_iso rs c).length = 0
    · rw [if_pos h0] at h
      cases h
    · rw [if_neg h0] at h
      by_cases h1 : (countries_from_currency_iso rs c).length = 1
      · rw [if_pos h1] at h
        cases h
      · rw [if_neg h1] at h
        split at h
        · split at h
          · injection h with h2
            exact ⟨h2.symm, by omega⟩
          · cases h
        · injection h with h2
          exact ⟨h2.symm, by omega⟩
  · intro e h
    cases h

/-- Witness for C3 at a two-currency country with no primary flag. -/
theorem c3_witness :
    (FxError.ambiguousCurrency "BB" ["XXX", "YYY"] =
        .ambiguousCurrency "BB" (currency_isos_from_country rsAmb "BB") ∧
      2 ≤ (currency_isos_from_country rsAmb "BB").length) ∧
    ambiguousCurrencyMessage "BB" "a" ≠ ambiguousOwnerMessage "BB" "a" :=
  ⟨c3_ambiguity_errors_distinct.2.2.1 rsAmb "BB" _ rfl,
   c3_ambiguity_errors_distinct.1 "BB" "a" "BB" "a"⟩

/-- C4 counterexample: a raw entry whose AlphabeticCode is present but empty
is retained by the load filter, so a loaded record can carry an empty
`currency_iso`; the claim says such entries are discarded. -/
theorem c4_counterexample :
    json_data [⟨some "", "Testcur", "TT", false, false⟩] =
      [⟨"", "Testcur", "TT", false, false⟩] ∧
    ∃ r ∈ json_data [⟨some "", "Testcur", "TT", false, false⟩],
      r.currency_iso = "" :=
  ⟨rfl, by decide⟩

/-- C4 (amended): the load filter discards exactly the raw entries whose
AlphabeticCode field is absent or null: dropping such an entry leaves the
loaded record list unchanged, an entry with a present code (even the empty
string) is retained in place, and every retained record's code was present on
some raw entry. -/
theorem c4_json_data_filter (raw₁ raw₂ : List RawRecord) (e : RawRecord) :
    (e.currency_iso = none →
      json_data (raw₁ ++ e :: raw₂) = json_data raw₁ ++ json_data raw₂) ∧
    (∀ i, e.currency_iso = some i →
      json_data (raw₁ ++ e :: raw₂) =
        json_data raw₁ ++
          { currency_iso := i, currency := e.currency, country := e.country,
            owner := e.owner, primary := e.primary } :: json_data raw₂) ∧
    (∀ r ∈ json_data (raw₁ ++ e :: raw₂), ∃ a ∈ raw₁ ++ e :: raw₂,
      a.currency_iso = some r.currency_iso) := by
  refine ⟨?_, ?_, ?_⟩
  · intro h
    simp [json_data, List.filterMap_append, List.filterMap_cons, h]
  · intro i h
    simp [json_data, List.filterMap_append, List.filterMap_cons, h]
  · intro r hr
    simp only [json_data, List.mem_filterMap] at hr
    rcases hr with ⟨a, ha, hsome⟩
    cases hai : a.currency_iso with
    | none =>
      rw [hai] at hsome
      cases hsome
    | some i =>
      rw [hai] at hsome
      simp only [Option.map_some'] at hsome
      injection hsome with h2
      refine ⟨a, ha, ?_⟩
      rw [hai, ← h2]

/-- Witness for the amended C4: an entry with an absent code is dropped. -/
theorem c4_witness :
    json_data [⟨none, "C", "K", false, false⟩] = [] :=
  (c4_json_data_filter [] [] _).1 rfl

/-- C5: every lookup is case-insensitive in its string key: keys with the
same uppercasing give the same result from the name and ISO maps, the
set-valued lookups and the owner and primary maps, and the two disambiguation
operations return the same values on them (their error payloads echo the key
string exactly as given, so the returned values are what is compared). -/
theorem c5_lookups_case_insensitive (rs : List Record) (s t : String)
    (h : upper s = upper t) :
    currency_from_currency_iso rs s = currency_from_currency_iso rs t ∧
    currency_iso_from_currency rs s = currency_iso_from_currency rs t ∧
    currency_isos_from_country rs s = currency_isos_from_country rs t ∧
    countries_from_currency_iso rs s = countries_from_currency_iso rs t ∧
    dictGet (currency_iso_to_owner_country_map rs) (upper s) =
      dictGet (currency_iso_to_owner_country_map rs) (upper t) ∧
    dictGet (country_to_primary_currency_iso_map rs) (upper s) =
      dictGet (country_to_primary_currency_iso_map rs) (upper t) ∧
    (∀ v, currency_iso_from_country rs s = .ok v ↔
      currency_iso_from_country rs t = .ok v) ∧
    (∀ v, country_from_currency_iso rs s = .ok v ↔
      country_from_currency_iso rs t = .ok v) := by
  have hisos : currency_isos_from_country rs s = currency_isos_from_country rs t := by
    simp only [currency_isos_from_country, h]
  have hctys : countries_from_currency_iso rs s = countries_from_currency_iso rs t := by
    simp only [countries_from_currency_iso, h]
  refine ⟨?_, ?_, hisos, hctys, by rw [h], by rw [h], ?_, ?_⟩
  · simp only [currency_from_currency_iso, h]
  · simp only [currency_iso_from_currency, h]
  · intro v
    unfold currency_iso_from_country
    rw [hisos, h]
    by_cases h0 : (currency_isos_from_country rs t).length = 0
    · simp only [if_pos h0]
    · simp only [if_neg h0]
      by_cases h1 : (currency_isos_from_country rs t).length = 1
      · simp only [if_pos h1]
      · simp only [if_neg h1]
        cases hp : dictGet (country_to_primary_currency_iso_map rs) (upper t) with
        | some p => simp [hp]
        | none => simp [hp]
  · intro v
    unfold country_from_currency_iso
    rw [hctys, h]
    by_cases h0 : (countries_from_currency_iso rs t).length = 0
    · simp only [if_pos h0]
    · simp only [if_neg h0]
      by_cases h1 : (countries_from_currency_iso rs t).length = 1
      · simp only [if_pos h1]
      · simp only [if_neg h1]
        cases hp : dictGet (currency_iso_to_owner_country_map rs) (upper t) with
        | some o =>
          by_cases he : o = ""
          · simp [hp, he]
          · simp [hp, he]
        | none => simp [hp]

/-- Witness for C5 at the spec's example pair of keys. -/
theorem c5_witness :
    currency_from_currency_iso rsSingle "usd" = currency_from_currency_iso rsSingle "USD" :=
  (c5_lookups_case_insensitive rsSingle "usd" "USD" rfl).1

/-- C6: on a dataset whose stored ISO codes are uppercase and whose
currency-name to ISO correspondence is one-to-one up to case (the spec's
stated assumptions about the bundled dataset, which is not among the
sources), the two one-to-one maps round-trip: the currency name looked up
from a stored ISO code maps back to that same code. -/
theorem c6_round_trip (rs : List Record)
    (h1 : ∀ r ∈ rs, upper r.currency_iso = r.currency_iso)
    (h2 : ∀ r ∈ rs, ∀ q ∈ rs, upper r.currency = upper q.currency →
      r.currency_iso = q.currency_iso)
    (r : Record) (hr : r ∈ rs) :
    ∃ name, currency_from_currency_iso rs r.currency_iso = some name ∧
      currency_iso_from_currency rs name = some r.currency_iso := by
  have hup := h1 r hr
  have hmem1 : (r.currency_iso, r.currency) ∈ currency_iso_to_currency_map rs := by
    simp only [currency_iso_to_currency_map, List.mem_map]
    exact ⟨r, hr, rfl⟩
  rcases dictGet_exists_of_mem _ _ _ hmem1 with ⟨name, hname⟩
  have hname2 : dictGet (currency_iso_to_currency_map rs) (upper r.currency_iso) =
      some name := by
    rw [hup]
    exact hname
  have hmem2 := dictGet_mem _ _ _ hname
  simp only [currency_iso_to_currency_map, List.mem_map, Prod.mk.injEq] at hmem2
  rcases hmem2 with ⟨q, hq, hqiso, hqname⟩
  have hmem3 : (upper q.currency, q.currency_iso) ∈ currency_to_currency_iso_map rs := by
    simp only [currency_to_currency_iso_map, List.mem_map]
    exact ⟨q, hq, rfl⟩
  rcases dictGet_exists_of_mem _ _ _ hmem3 with ⟨w, hw⟩
  have hmem4 := dictGet_mem _ _ _ hw
  simp only [currency_to_currency_iso_map, List.mem_map, Prod.mk.injEq] at hmem4
  rcases hmem4 with ⟨p, hp, hpname, hpiso⟩
  refine ⟨name, ?_, ?_⟩
  · simp only [currency_from_currency_iso]
    exact hname2
  · simp only [currency_iso_from_currency]
    rw [← hqname, hw]
    have hwr : w = r.currency_iso := by
      rw [← hpiso, h2 p hp q hq hpname, hqiso]
    rw [hwr]

/-- Witness for C6 on a one-record dataset. -/
theorem c6_witness :
    ∃ name, currency_from_currency_iso rsSingle "USD" = some name ∧
      currency_iso_from_currency rsSingle name = some "USD" :=
  c6_round_trip rsSingle (by decide) (by decide)
    { currency_iso := "USD", currency := "US Dollar", country := "Narnia",
      owner := false, primary := false } (by decide)

/-- C7: the four plain lookups signal an unknown key by an absent value or
the empty set, never an error signal: a key matching no record gives `none`
from the one-to-one maps and the empty set from the set-valued maps, and each
of these operations is a total function into plain values. -/
theorem c7_plain_lookups_absence (rs : List Record) (s : String) :
    ((∀ r ∈ rs, r.currency_iso ≠ upper s) → currency_from_currency_iso rs s = none) ∧
    ((∀ r ∈ rs, upper r.currency ≠ upper s) → currency_iso_from_currency rs s = none) ∧
    ((∀ r ∈ rs, upper r.country ≠ upper s) → currency_isos_from_country rs s = []) ∧
    ((∀ r ∈ rs, r.currency_iso ≠ upper s) → countries_from_currency_iso rs s = []) := by
  refine ⟨?_, ?_, ?_, ?_⟩
  · intro h
    simp only [currency_from_currency_iso]
    apply dictGet_eq_none
    intro p hp
    simp only [currency_iso_to_currency_map, List.mem_map] at hp
    rcases hp with ⟨r, hr, rfl⟩
    exact h r hr
  · intro h
    simp only [currency_iso_from_currency]
    apply dictGet_eq_none
    intro p hp
    simp only [currency_to_currency_iso_map, List.mem_map] at hp
    rcases hp with ⟨r, hr, rfl⟩
    exact h r hr
  · intro h
    have hnone := smLookup_foldl_smAdd_none (fun r => upper r.country)
      (fun r => r.currency_iso) rs [] (upper s) rfl h
    simp only [currency_isos_from_country, country_to_currency_isos_map]
    rw [hnone]
    rfl
  · intro h
    have hnone := smLookup_foldl_smAdd_none (fun r => r.currency_iso)
      (fun r => r.country) rs [] (upper s) rfl h
    simp only [countries_from_currency_iso, currency_iso_to_countries_map]
    rw [hnone]
    rfl

/-- Witness for C7 at an unknown key. -/
theorem c7_witness :
    currency_from_currency_iso rsSingle "qqq" = none ∧
    currency_iso_from_currency rsSingle "qqq" = none ∧
    currency_isos_from_country rsSingle "qqq" = [] ∧
    countries_from_currency_iso rsSingle "qqq" = [] := by
  obtain ⟨a, b, c, d⟩ := c7_plain_lookups_absence rsSingle "qqq"
  exact ⟨a (by decide), b (by decide), c (by decide), d (by decide)⟩

/-- C8: the lookup-currency-by-country entry operation resolves its input to
the key `resolved_country_code` (the text itself when it is a known country
code, else the code of the matched free-text name, else the text verbatim),
calls the primary-ISO lookup on that key, fails with the unknown-country
message carrying the original text and status -1 when it gives `none`,
produces `{text}: {code} ({currency name for code})` with status 0 on a found
code, and propagates an ambiguity error. -/
theorem c8_cli_currency_lookup (cc : CountryCodes) (rs : List Record)
    (text : String) :
    ((cc.country_from_iso text).isSome → resolved_country_code cc text = text) ∧
    (∀ m, cc.country_from_iso text = none → cc.match_country text = some m →
      resolved_country_code cc text = cc.iso_from_country m) ∧
    (cc.country_from_iso text = none → cc.match_country text = none →
      resolved_country_code cc text = text) ∧
    (currency_iso_from_country rs (resolved_country_code cc text) = .ok none →
      cli_currency_iso_from_country cc rs text =
        .ok (-1, "Unknown country or organization: " ++ text)) ∧
    (∀ iso, currency_iso_from_country rs (resolved_country_code cc text) =
        .ok (some iso) →
      cli_currency_iso_from_country cc rs text =
        .ok (0, text ++ (": " ++ (iso ++ (" (" ++
          (pyStr (currency_from_currency_iso rs iso) ++ ")")))))) ∧
    (∀ e, currency_iso_from_country rs (resolved_country_code cc text) = .error e →
      cli_currency_iso_from_country cc rs text = .error e) ∧
    (-1 : Int) ≠ 0 := by
  refine ⟨?_, ?_, ?_, ?_, ?_, ?_, by decide⟩
  · intro h
    cases hc : cc.country_from_iso text with
    | some v => simp [resolved_country_code, hc]
    | none =>
      rw [hc] at h
      cases h
  · intro m hc hm
    simp [resolved_country_code, hc, hm]
  · intro hc hm
    simp [resolved_country_code, hc, hm]
  · intro h
    simp [cli_currency_iso_from_country, h]
  · intro iso h
    simp [cli_currency_iso_from_country, h]
  · intro e h
    simp [cli_currency_iso_from_country, h]

/-- Witness for C8: the known code US resolves to itself and prints the
currency line with status 0. -/
theorem c8_witness :
    cli_currency_iso_from_country ccUS rsUS "US" = .ok (0, "US: USD (US Dollar)") :=
  (c8_cli_currency_lookup ccUS rsUS "US").2.2.2.2.1 "USD" rfl

/-- C9 counterexample: on an unknown code the entry operation prints
`Unknown currency ISO: {iso}`, a message that does not contain the claim's
phrase "unknown currency code" in any letter case, though it does carry the
input code and the words "unknown currency iso". -/
theorem c9_counterexample :
    cli_country_from_currency_iso ccTrivial [] "ZZZ" =
      .ok (-1, "Unknown currency ISO: ZZZ") ∧
    strHasSub (lower "Unknown currency ISO: ZZZ") "currency code" = false ∧
    strHasSub (lower "Unknown currency ISO: ZZZ") "unknown currency iso" = true ∧
    strHasSub (lower "Unknown currency ISO: ZZZ") (lower "ZZZ") = true :=
  ⟨rfl, by decide, by decide, by decide⟩

/-- C9 (amended): the lookup-country-by-ISO entry operation calls the
owner-country lookup on its input; when that gives `none` it fails with the
message `Unknown currency ISO: {iso}` (carrying the input code) and status
-1; on a found country it replaces a country that is a known country code by
its display name and produces `{iso}: {country-display} ({currency name for
iso})` with status 0; an ambiguity error propagates. -/
theorem c9_cli_country_lookup (cc : CountryCodes) (rs : List Record)
    (iso : String) :
    (country_from_currency_iso rs iso = .ok none →
      cli_country_from_currency_iso cc rs iso =
        .ok (-1, "Unknown currency ISO: " ++ iso)) ∧
    (∀ k, country_from_currency_iso rs iso = .ok (some k) → k ∈ cc.codes →
      cli_country_from_currency_iso cc rs iso =
        .ok (0, iso ++ (": " ++ (cc.display_name k ++ (" (" ++
          (pyStr (currency_from_currency_iso rs iso) ++ ")")))))) ∧
    (∀ k, country_from_currency_iso rs iso = .ok (some k) → k ∉ cc.codes →
      cli_country_from_currency_iso cc rs iso =
        .ok (0, iso ++ (": " ++ (k ++ (" (" ++
          (pyStr (currency_from_currency_iso rs iso) ++ ")")))))) ∧
    (∀ e, country_from_currency_iso rs iso = .error e →
      cli_country_from_currency_iso cc rs iso = .error e) ∧
    (-1 : Int) ≠ 0 := by
  refine ⟨?_, ?_, ?_, ?_, by decide⟩
  · intro h
    simp [cli_country_from_currency_iso, h]
  · intro k h hk
    simp [cli_country_from_currency_iso, h, hk]
  · intro k h hk
    simp [cli_country_from_currency_iso, h, hk]
  · intro e h
    simp [cli_country_from_currency_iso, h]

/-- Witness for the amended C9: USD maps to the display name of US. -/
theorem c9_witness :
    cli_country_from_currency_iso ccUS rsUS "USD" =
      .ok (0, "USD: United States (US Dollar)") :=
  (c9_cli_country_lookup ccUS rsUS "USD").2.1 "US" rfl (by decide)

/-- C10: the set-valued queries never mutate the index they consult: with the
state threaded explicitly, a query returns the index unchanged (also on an
unknown key), a repeated query returns the same result, and the stateful
reading agrees with the pure lookup on the built indexes. -/
theorem c10_queries_preserve_index (m : SMap) (s : String) :
    (currency_isos_from_country_st m s).2 = m ∧
    (countries_from_currency_iso_st m s).2 = m ∧
    (currency_isos_from_country_st (currency_isos_from_country_st m s).2 s).1 =
      (currency_isos_from_country_st m s).1 ∧
    (countries_from_currency_iso_st (countries_from_currency_iso_st m s).2 s).1 =
      (countries_from_currency_iso_st m s).1 ∧
    (∀ rs, currency_isos_from_country rs s =
      (currency_isos_from_country_st (country_to_currency_isos_map rs) s).1) ∧
    (∀ rs, countries_from_currency_iso rs s =
      (countries_from_currency_iso_st (currency_iso_to_countries_map rs) s).1) :=
  ⟨rfl, rfl, rfl, rfl, fun _ => rfl, fun _ => rfl⟩

end CurrencyCodes
